import Mathlib

/-!
Verification development for the BusDriver repository (an IDE extension
managing Azure Service Bus queues).  This file shallowly embeds the parts of
the code the specification's claims concern:

* the connection store (`ConnectionsProvider.addConnection`,
  `deleteConnection`, `saveConnections`, `getConnectionString` in
  `src/providers/ConnectionsProvider.ts`),
* the scan-based deletion routine (`deleteMessageFromQueue`),
* the bulk move and bulk delete loops (`moveMessageToQueue`,
  `deleteMessages`),
* the drag-and-drop move path (`handleDrop` / `processMessageMove`),
* the webview handler that attaches provenance fields
  (`QueueMessagesPanel` message handler, cases `moveToQueue`,
  `deleteMessages`, `startDrag`).

Host-environment effects (the broker, the secret store, user notifications)
are modelled as explicit state or as environment parameters: the broker's
`receiveMessages` is a function from attempt index to the batch it returns,
and a send is an `Except String Unit` outcome (`error e` models a thrown
exception whose `.message` is `e`).  Receive calls themselves are modelled
as total (the claims under study only involve send failures and
scan-not-found failures).  Progress reporting and notifications carry no
state relevant to any claim and are not modelled.
-/

namespace BusDriver

/-- A stored connection, mirroring the `Connection` model
(`src/models/Connection.ts`): id, display name, connection string and
creation timestamp (dates are kept abstract as strings). -/
structure Connection where
  id : String
  name : String
  connectionString : String
  createdAt : String
deriving DecidableEq

/-- The extension-host state touched by the connection lifecycle:
the in-memory `connections` array, the persisted non-secret metadata
(`context.globalState`, key `connections`) and the secret store
(`context.secrets`), modelled as an association list from key to value. -/
structure ExtensionState where
  connections : List Connection
  globalState : List Connection
  secrets : List (String × String)
deriving DecidableEq

/-- `context.secrets.store key value`: set the value for `key`, replacing an
existing entry or appending a fresh one. -/
def secretStorePut (store : List (String × String)) (key value : String) :
    List (String × String) :=
  if store.any (fun kv => kv.1 == key) then
    store.map (fun kv => if kv.1 == key then (key, value) else kv)
  else
    store ++ [(key, value)]

/-- `ConnectionsProvider.saveConnections`: store every connection string in
the secret store under `connection.<id>`, then persist the metadata with the
`connectionString` field blanked out. -/
def saveConnections (s : ExtensionState) : ExtensionState :=
  let secrets := s.connections.foldl
    (fun st c => secretStorePut st (("connection.") ++ c.id) c.connectionString)
    s.secrets
  let meta := s.connections.map (fun c => { c with connectionString := ("") })
  { s with secrets := secrets, globalState := meta }

/-- `ConnectionsProvider.addConnection` (after the interactive input has
produced a validated connection): push onto the in-memory list and persist. -/
def addConnection (s : ExtensionState) (c : Connection) : ExtensionState :=
  saveConnections { s with connections := s.connections ++ [c] }

/-- `ConnectionsProvider.deleteConnection` (confirmed path): filter the
in-memory list by id and persist. -/
def deleteConnection (s : ExtensionState) (connId : String) : ExtensionState :=
  saveConnections
    { s with connections := s.connections.filter (fun c => !(c.id == connId)) }

/-- An operation on the connection store. -/
inductive ConnOp where
  | add (c : Connection)
  | delete (connId : String)

/-- Run a sequence of connection-store operations. -/
def runOps (s : ExtensionState) : List ConnOp → ExtensionState
  | [] => s
  | op :: rest =>
    runOps (match op with
      | ConnOp.add c => addConnection s c
      | ConnOp.delete i => deleteConnection s i) rest

/-- The fresh-install state: nothing in memory, nothing persisted. -/
def initialState : ExtensionState := ⟨[], [], []⟩

/-- `ConnectionsProvider.getConnectionString`: read the secret store. -/
def getConnectionString (s : ExtensionState) (connId : String) : Option String :=
  (s.secrets.find? (fun kv => kv.1 == (("connection.") ++ connId))).map (fun kv => kv.2)

theorem secretStorePut_keys {P : String → Prop} {store : List (String × String)}
    {key value : String} (hstore : ∀ kv ∈ store, P kv.1) (hkey : P key) :
    ∀ kv ∈ secretStorePut store key value, P kv.1 := by
  intro kv hkv
  unfold secretStorePut at hkv
  by_cases h : store.any (fun kv => kv.1 == key)
  · simp only [h, if_pos] at hkv
    rcases List.mem_map.mp hkv with ⟨kv0, hkv0, hmap⟩
    by_cases hk : kv0.1 == key
    · simp only [hk, if_pos] at hmap
      subst hmap
      exact hkey
    · simp only [hk] at hmap
      simp only [Bool.false_eq_true, if_false] at hmap
      subst hmap
      exact hstore kv0 hkv0
  · simp only [h, if_neg, Bool.false_eq_true, not_false_iff] at hkv
    rcases List.mem_append.mp hkv with h1 | h1
    · exact hstore kv h1
    · rcases List.mem_singleton.mp h1 with rfl
      exact hkey

theorem foldl_secrets_keys (P : String → Prop)
    (hP : ∀ c : Connection, P (("connection.") ++ c.id)) :
    ∀ (cs : List Connection) (store : List (String × String)),
      (∀ kv ∈ store, P kv.1) →
      ∀ kv ∈ cs.foldl
        (fun st c => secretStorePut st (("connection.") ++ c.id) c.connectionString)
        store, P kv.1 := by
  intro cs
  induction cs with
  | nil => intro store h kv hkv; exact h kv hkv
  | cons c rest ih =>
    intro store h kv hkv
    simp only [List.foldl_cons] at hkv
    exact ih _ (secretStorePut_keys h (hP c)) kv hkv

theorem saveConnections_secrets_keys (s : ExtensionState)
    (h : ∀ kv ∈ s.secrets, ∃ i, kv.1 = ("connection.") ++ i) :
    ∀ kv ∈ (saveConnections s).secrets, ∃ i, kv.1 = ("connection.") ++ i := by
  intro kv hkv
  unfold saveConnections at hkv
  simp only at hkv
  exact foldl_secrets_keys (fun k => ∃ i, k = ("connection.") ++ i)
    (fun c => ⟨c.id, rfl⟩) s.connections s.secrets h kv hkv

theorem saveConnections_globalState_blank (s : ExtensionState) :
    ∀ c ∈ (saveConnections s).globalState, c.connectionString = ("") := by
  intro c hc
  unfold saveConnections at hc
  simp only at hc
  rcases List.mem_map.mp hc with ⟨c0, _, hmap⟩
  subst hmap
  rfl

/-- The store invariant of the claim: persisted metadata never carries a
connection string, and the secret store only holds `connection.<id>` keys. -/
def StoreInvariant (s : ExtensionState) : Prop :=
  (∀ c ∈ s.globalState, c.connectionString = ("")) ∧
  (∀ kv ∈ s.secrets, ∃ i, kv.1 = ("connection.") ++ i)

theorem storeInvariant_addConnection {s : ExtensionState} (c : Connection)
    (h : StoreInvariant s) : StoreInvariant (addConnection s c) := by
  refine ⟨saveConnections_globalState_blank _, ?_⟩
  exact saveConnections_secrets_keys { s with connections := s.connections ++ [c] } h.2

theorem storeInvariant_deleteConnection {s : ExtensionState} (i : String)
    (h : StoreInvariant s) : StoreInvariant (deleteConnection s i) := by
  refine ⟨saveConnections_globalState_blank _, ?_⟩
  exact saveConnections_secrets_keys
    { s with connections := s.connections.filter (fun c => !(c.id == i)) } h.2

theorem storeInvariant_runOps {s : ExtensionState} (h : StoreInvariant s)
    (ops : List ConnOp) : StoreInvariant (runOps s ops) := by
  induction ops generalizing s with
  | nil => exact h
  | cons op rest ih =>
    cases op with
    | add c => exact ih (storeInvariant_addConnection c h)
    | delete i => exact ih (storeInvariant_deleteConnection i h)

theorem storeInvariant_initial : StoreInvariant initialState := by
  constructor
  · intro c hc
    cases hc
  · intro kv hkv
    cases hkv

/-- Claim C1: every state of the persisted metadata store reachable from the
fresh-install state by any sequence of addConnection / deleteConnection
operations keeps the `connectionString` field of every stored record empty,
and every secret-store entry lives under a key of the form
`connection.<id>`. -/
theorem claim_c1_store_invariant (ops : List ConnOp) :
    (∀ c ∈ (runOps initialState ops).globalState, c.connectionString = ("")) ∧
    (∀ kv ∈ (runOps initialState ops).secrets, ∃ i, kv.1 = ("connection.") ++ i) :=
  storeInvariant_runOps storeInvariant_initial ops

/-- Witness for C1 at a concrete operation sequence: adding one connection
stores a blanked record in the metadata and a `connection.<id>` key in the
secret store. -/
theorem claim_c1_store_invariant_witness :
    ((⟨("id1"), ("n"), (""), ("t")⟩ : Connection).connectionString = ("")) ∧
    (∃ i, ((("connection.id1"), ("cs1")) : String × String).1 = ("connection.") ++ i) := by
  have h := claim_c1_store_invariant
    [ConnOp.add (⟨("id1"), ("n"), ("cs1"), ("t")⟩ : Connection)]
  constructor
  · exact h.1 (⟨("id1"), ("n"), (""), ("t")⟩ : Connection) (by decide)
  · exact h.2 ((("connection.id1"), ("cs1")) : String × String) (by decide)

/-- A queue reference (`src/models/Queue.ts`): name plus owning connection. -/
structure Queue where
  name : String
  connectionId : String
deriving DecidableEq

/-- A message as returned by the broker's `receiveMessages` during a scan.
The scan-based deletion only reads `message.sequenceNumber?.toString()`
(which may be absent), so only the sequence number and an opaque body are
modelled. -/
structure ReceivedMsg where
  sequenceNumber : Option String
  body : String
deriving DecidableEq

/-- The constant `maxAttempts = 5` of `deleteMessageFromQueue`. -/
def maxAttempts : Nat := 5

/-- The batch size `100` passed to `receiver.receiveMessages`. -/
def receiveBatchSize : Nat := 100

/-- The `maxWaitTimeInMs: 5000` option passed to `receiver.receiveMessages`. -/
def receiveMaxWaitMs : Nat := 5000

/-- The observable state of one run of `deleteMessageFromQueue`'s scan:
messages completed (acknowledged), messages abandoned (returned to the
queue), all messages received so far, the number of receive attempts, the
arguments `(maxMessageCount, maxWaitTimeInMs)` of each receive call, and the
`found` flag. -/
structure ScanState where
  completed : List ReceivedMsg
  abandoned : List ReceivedMsg
  received : List ReceivedMsg
  attempts : Nat
  calls : List (Nat × Nat)
  found : Bool
deriving DecidableEq

/-- One iteration of the scan's inner `for` loop: complete the message when
its sequence number matches the target, abandon it otherwise. -/
def scanStep (target : String) (st : ScanState) (m : ReceivedMsg) : ScanState :=
  if m.sequenceNumber == some target then
    { st with completed := st.completed ++ [m], found := true }
  else
    { st with abandoned := st.abandoned ++ [m] }

/-- The scan's inner `for` loop over one received batch. -/
def processBatch (target : String) (batch : List ReceivedMsg) (st : ScanState) :
    ScanState :=
  batch.foldl (scanStep target) st

/-- The per-attempt bookkeeping done before the batch is inspected: one more
receive attempt, with arguments `(100, 5000)`, and the batch appended to the
messages received so far. -/
def advanceState (st : ScanState) (batch : List ReceivedMsg) : ScanState :=
  { st with
    attempts := st.attempts + 1,
    calls := st.calls ++ [(receiveBatchSize, receiveMaxWaitMs)],
    received := st.received ++ batch }

/-- The scan's outer `for` loop.  `env` gives the batch the broker returns on
each receive attempt (an exhausted `env` yields the empty batch); `fuel`
counts the remaining attempts of the `attempt < maxAttempts` bound, and `i`
is the current attempt index.  The loop stops when `found` is already set,
when the bound is exhausted, or when an attempt neither finds the target nor
returns any message. -/
def scanLoop (target : String) (env : List (List ReceivedMsg)) :
    Nat → Nat → ScanState → ScanState
  | 0, _, st => st
  | fuel + 1, i, st =>
    if st.found then st
    else
      if !(processBatch target (env.getD i []) (advanceState st (env.getD i []))).found
          && (env.getD i []).isEmpty then
        processBatch target (env.getD i []) (advanceState st (env.getD i []))
      else
        scanLoop target env fuel (i + 1)
          (processBatch target (env.getD i []) (advanceState st (env.getD i [])))

/-- The scan state left by `ConnectionsProvider.deleteMessageFromQueue`. -/
def scanDelete (env : List (List ReceivedMsg)) (target : String) : ScanState :=
  scanLoop target env maxAttempts 0 ⟨[], [], [], 0, [], false⟩

/-- `ConnectionsProvider.deleteMessageFromQueue`: run the scan; when the
target was never found, throw `Message <seq> not found in queue`. -/
def deleteMessageFromQueue (env : List (List ReceivedMsg)) (target : String) :
    Except String ScanState :=
  let st := scanDelete env target
  if st.found then Except.ok st
  else Except.error ((("Message ")) ++ target ++ (" not found in queue"))

theorem scanStep_attempts (target : String) (st : ScanState) (m : ReceivedMsg) :
    (scanStep target st m).attempts = st.attempts := by
  unfold scanStep
  by_cases h : m.sequenceNumber == some target <;> simp [h]

theorem scanStep_calls (target : String) (st : ScanState) (m : ReceivedMsg) :
    (scanStep target st m).calls = st.calls := by
  unfold scanStep
  by_cases h : m.sequenceNumber == some target <;> simp [h]

theorem scanStep_received (target : String) (st : ScanState) (m : ReceivedMsg) :
    (scanStep target st m).received = st.received := by
  unfold scanStep
  by_cases h : m.sequenceNumber == some target <;> simp [h]

theorem processBatch_attempts (target : String) (batch : List ReceivedMsg) :
    ∀ st : ScanState, (processBatch target batch st).attempts = st.attempts := by
  induction batch with
  | nil => intro st; rfl
  | cons m rest ih =>
    intro st
    show (processBatch target rest (scanStep target st m)).attempts = st.attempts
    rw [ih, scanStep_attempts]

theorem processBatch_calls (target : String) (batch : List ReceivedMsg) :
    ∀ st : ScanState, (processBatch target batch st).calls = st.calls := by
  induction batch with
  | nil => intro st; rfl
  | cons m rest ih =>
    intro st
    show (processBatch target rest (scanStep target st m)).calls = st.calls
    rw [ih, scanStep_calls]

theorem processBatch_received (target : String) (batch : List ReceivedMsg) :
    ∀ st : ScanState, (processBatch target batch st).received = st.received := by
  induction batch with
  | nil => intro st; rfl
  | cons m rest ih =>
    intro st
    show (processBatch target rest (scanStep target st m)).received = st.received
    rw [ih, scanStep_received]

theorem processBatch_found (target : String) (batch : List ReceivedMsg) :
    ∀ st : ScanState, (processBatch target batch st).found =
      (st.found || batch.any (fun m => m.sequenceNumber == some target)) := by
  induction batch with
  | nil => intro st; simp [processBatch]
  | cons m rest ih =>
    intro st
    show (processBatch target rest (scanStep target st m)).found = _
    rw [ih]
    unfold scanStep
    by_cases h : m.sequenceNumber == some target <;>
      simp [h, Bool.or_assoc, Bool.or_comm]

theorem processBatch_completed (target : String) (batch : List ReceivedMsg) :
    ∀ st : ScanState, (processBatch target batch st).completed =
      st.completed ++ batch.filter (fun m => m.sequenceNumber == some target) := by
  induction batch with
  | nil => intro st; simp [processBatch]
  | cons m rest ih =>
    intro st
    show (processBatch target rest (scanStep target st m)).completed = _
    rw [ih]
    unfold scanStep
    by_cases h : m.sequenceNumber == some target <;>
      simp [h, List.append_assoc]

theorem processBatch_abandoned (target : String) (batch : List ReceivedMsg) :
    ∀ st : ScanState, (processBatch target batch st).abandoned =
      st.abandoned ++ batch.filter (fun m => !(m.sequenceNumber == some target)) := by
  induction batch with
  | nil => intro st; simp [processBatch]
  | cons m rest ih =>
    intro st
    show (processBatch target rest (scanStep target st m)).abandoned = _
    rw [ih]
    unfold scanStep
    by_cases h : m.sequenceNumber == some target <;>
      simp [h, List.append_assoc]

theorem scanLoop_of_found (target : String) (env : List (List ReceivedMsg)) :
    ∀ (fuel i : Nat) (st : ScanState), st.found = true →
      scanLoop target env fuel i st = st := by
  intro fuel
  cases fuel with
  | zero => intro i st _; rfl
  | succ n => intro i st h; simp [scanLoop, h]

theorem scanLoop_succ (target : String) (env : List (List ReceivedMsg))
    (fuel i : Nat) (st : ScanState) (h : st.found = false) :
    scanLoop target env (fuel + 1) i st =
      (if !(processBatch target (env.getD i [])
            (advanceState st (env.getD i []))).found && (env.getD i []).isEmpty then
        processBatch target (env.getD i []) (advanceState st (env.getD i []))
      else
        scanLoop target env fuel (i + 1)
          (processBatch target (env.getD i []) (advanceState st (env.getD i [])))) := by
  simp only [scanLoop, h, Bool.false_eq_true, if_false]

theorem advanceState_attempts (st : ScanState) (batch : List ReceivedMsg) :
    (advanceState st batch).attempts = st.attempts + 1 := rfl

theorem advanceState_found (st : ScanState) (batch : List ReceivedMsg) :
    (advanceState st batch).found = st.found := rfl

theorem scanLoop_attempts_le (target : String) (env : List (List ReceivedMsg)) :
    ∀ (fuel i : Nat) (st : ScanState),
      (scanLoop target env fuel i st).attempts ≤ st.attempts + fuel := by
  intro fuel
  induction fuel with
  | zero => intro i st; simp [scanLoop]
  | succ n ih =>
    intro i st
    cases hfd : st.found with
    | true => rw [scanLoop_of_found target env _ _ _ hfd]; omega
    | false =>
      rw [scanLoop_succ target env n i st hfd]
      have hA : (processBatch target (env.getD i [])
          (advanceState st (env.getD i []))).attempts = st.attempts + 1 := by
        rw [processBatch_attempts, advanceState_attempts]
      by_cases h2 : !(processBatch target (env.getD i [])
          (advanceState st (env.getD i []))).found && (env.getD i []).isEmpty
      · rw [if_pos h2]
        omega
      · rw [if_neg h2]
        have := ih (i + 1)
          (processBatch target (env.getD i []) (advanceState st (env.getD i [])))
        omega

theorem scanLoop_calls_replicate (target : String) (env : List (List ReceivedMsg)) :
    ∀ (fuel i : Nat) (st : ScanState),
      st.calls = List.replicate st.attempts (receiveBatchSize, receiveMaxWaitMs) →
      (scanLoop target env fuel i st).calls =
        List.replicate (scanLoop target env fuel i st).attempts
          (receiveBatchSize, receiveMaxWaitMs) := by
  intro fuel
  induction fuel with
  | zero => intro i st h; simpa [scanLoop] using h
  | succ n ih =>
    intro i st h
    cases hfd : st.found with
    | true => rw [scanLoop_of_found target env _ _ _ hfd]; exact h
    | false =>
      rw [scanLoop_succ target env n i st hfd]
      have hst2 : (processBatch target (env.getD i [])
          (advanceState st (env.getD i []))).calls =
          List.replicate (processBatch target (env.getD i [])
            (advanceState st (env.getD i []))).attempts
            (receiveBatchSize, receiveMaxWaitMs) := by
        rw [processBatch_calls, processBatch_attempts, advanceState_attempts]
        show st.calls ++ [(receiveBatchSize, receiveMaxWaitMs)] = _
        rw [h, List.replicate_succ']
      by_cases h2 : !(processBatch target (env.getD i [])
          (advanceState st (env.getD i []))).found && (env.getD i []).isEmpty
      · rw [if_pos h2]
        exact hst2
      · rw [if_neg h2]
        exact ih (i + 1) _ hst2

/-- The partition invariant of the scan: completed and abandoned are exactly
the received messages split by whether the sequence number matches the
target. -/
def ScanPartition (target : String) (st : ScanState) : Prop :=
  st.completed = st.received.filter (fun m => m.sequenceNumber == some target) ∧
  st.abandoned = st.received.filter (fun m => !(m.sequenceNumber == some target))

theorem scanLoop_partition (target : String) (env : List (List ReceivedMsg)) :
    ∀ (fuel i : Nat) (st : ScanState), ScanPartition target st →
      ScanPartition target (scanLoop target env fuel i st) := by
  intro fuel
  induction fuel with
  | zero => intro i st h; simpa [scanLoop] using h
  | succ n ih =>
    intro i st h
    cases hfd : st.found with
    | true => rw [scanLoop_of_found target env _ _ _ hfd]; exact h
    | false =>
      rw [scanLoop_succ target env n i st hfd]
      have hst2 : ScanPartition target (processBatch target (env.getD i [])
          (advanceState st (env.getD i []))) := by
        constructor
        · rw [processBatch_completed, processBatch_received]
          show (advanceState st (env.getD i [])).completed ++ _ =
            List.filter _ (st.received ++ env.getD i [])
          show st.completed ++ _ = _
          rw [List.filter_append, h.1]
        · rw [processBatch_abandoned, processBatch_received]
          show (advanceState st (env.getD i [])).abandoned ++ _ =
            List.filter _ (st.received ++ env.getD i [])
          show st.abandoned ++ _ = _
          rw [List.filter_append, h.2]
      by_cases h2 : !(processBatch target (env.getD i [])
          (advanceState st (env.getD i []))).found && (env.getD i []).isEmpty
      · rw [if_pos h2]
        exact hst2
      · rw [if_neg h2]
        exact ih (i + 1) _ hst2

/-- Claim C5: during a scan, every encountered message whose sequence number
does not match the target is abandoned (returned to the queue), and only
messages whose sequence number matches the target are ever completed
(acknowledged) — stated as an unconditional partition of the received
messages, so it holds regardless of whether the scan finds the target, runs
out of attempts, or ends in the thrown not-found error. -/
theorem claim_c5_nonmatching_abandoned (env : List (List ReceivedMsg))
    (target : String) :
    (scanDelete env target).abandoned =
      (scanDelete env target).received.filter
        (fun m => !(m.sequenceNumber == some target)) ∧
    (scanDelete env target).completed =
      (scanDelete env target).received.filter
        (fun m => m.sequenceNumber == some target) := by
  have h := scanLoop_partition target env maxAttempts 0
    ⟨[], [], [], 0, [], false⟩ (by constructor <;> rfl)
  exact ⟨h.2, h.1⟩

theorem scanLoop_early_stop (target : String) (env : List (List ReceivedMsg)) :
    ∀ (fuel i : Nat) (st : ScanState), st.found = false →
      ∀ j : Nat, st.attempts + j + 1 < (scanLoop target env fuel i st).attempts →
        (env.getD (i + j) []).any (fun m => m.sequenceNumber == some target) = false ∧
        (env.getD (i + j) []).isEmpty = false := by
  intro fuel
  induction fuel with
  | zero =>
    intro i st _ j hj
    simp only [scanLoop] at hj
    omega
  | succ n ih =>
    intro i st hf j hj
    rw [scanLoop_succ target env n i st hf] at hj
    have hA : (processBatch target (env.getD i [])
        (advanceState st (env.getD i []))).attempts = st.attempts + 1 := by
      rw [processBatch_attempts, advanceState_attempts]
    by_cases h2 : !(processBatch target (env.getD i [])
        (advanceState st (env.getD i []))).found && (env.getD i []).isEmpty
    · rw [if_pos h2] at hj
      omega
    · rw [if_neg h2] at hj
      cases hfb : (processBatch target (env.getD i [])
          (advanceState st (env.getD i []))).found with
      | true =>
        rw [scanLoop_of_found target env _ _ _ hfb] at hj
        omega
      | false =>
        have hbf := processBatch_found target (env.getD i [])
          (advanceState st (env.getD i []))
        rw [hfb, advanceState_found, hf, Bool.false_or] at hbf
        have hany : (env.getD i []).any
            (fun m => m.sequenceNumber == some target) = false := hbf.symm
        have hne : (env.getD i []).isEmpty = false := by
          cases hie : (env.getD i []).isEmpty with
          | false => rfl
          | true => exact absurd (by rw [hfb, hie]; rfl) h2
        cases j with
        | zero => exact ⟨hany, hne⟩
        | succ j0 =>
          have harith : i + (j0 + 1) = (i + 1) + j0 := by omega
          rw [harith]
          exact ih (i + 1) _ hfb j0 (by omega)

/-- Claim C7: every call to the scan-based deletion performs at most 5
receive attempts; each attempt passes `(100, 5000)` as
`(maxMessageCount, maxWaitTimeInMs)` to `receiveMessages`; and the scan
stops as soon as an attempt's batch contains the matching sequence number
or is empty (whenever a further attempt followed attempt `j`, batch `j`
neither contained the target nor was empty). -/
theorem claim_c7_scan_budget (env : List (List ReceivedMsg)) (target : String) :
    (scanDelete env target).attempts ≤ maxAttempts ∧
    (scanDelete env target).calls =
      List.replicate (scanDelete env target).attempts
        (receiveBatchSize, receiveMaxWaitMs) ∧
    ∀ j : Nat, j + 1 < (scanDelete env target).attempts →
      (env.getD j []).any (fun m => m.sequenceNumber == some target) = false ∧
      (env.getD j []).isEmpty = false := by
  refine ⟨?_, ?_, ?_⟩
  · have h := scanLoop_attempts_le target env maxAttempts 0 ⟨[], [], [], 0, [], false⟩
    simpa [scanDelete] using h
  · exact scanLoop_calls_replicate target env maxAttempts 0 ⟨[], [], [], 0, [], false⟩ rfl
  · intro j hj
    have h := scanLoop_early_stop target env maxAttempts 0
      ⟨[], [], [], 0, [], false⟩ rfl j (by simpa [scanDelete] using hj)
    simpa using h

/-- Witness for C7 on the concrete environment whose first batch holds one
non-matching message and whose second is empty: the scan used two attempts,
so the first batch neither contained the target nor was empty. -/
theorem claim_c7_scan_budget_witness :
    (([[(⟨some ("1"), ("a")⟩ : ReceivedMsg)]] : List (List ReceivedMsg)).getD 0 []).any
      (fun m => m.sequenceNumber == some ("2")) = false ∧
    (([[(⟨some ("1"), ("a")⟩ : ReceivedMsg)]] : List (List ReceivedMsg)).getD 0 []).isEmpty = false := by
  have h := claim_c7_scan_budget [[(⟨some ("1"), ("a")⟩ : ReceivedMsg)]] ("2")
  exact h.2.2 0 (by decide)

/-- A message snapshot, mirroring `MessageData`
(`src/providers/QueueMessagesPanel.ts`): identifying data from a peek, plus
the optional provenance fields `sourceQueue` and `sourceConnectionString`. -/
structure MessageData where
  sequenceNumber : String
  messageId : String
  body : String
  properties : List (String × String)
  enqueuedTime : String
  deliveryCount : Nat
  sourceQueue : Option Queue
  sourceConnectionString : Option String
deriving DecidableEq

/-- JavaScript truthiness of an optional string: `undefined` and the empty
string are falsy. -/
def strTruthy : Option String → Bool
  | none => false
  | some s => !(s == (""))

/-- The condition `msg.sourceQueue && msg.sourceConnectionString` guarding
the deletion step of `moveMessageToQueue`. -/
def provenancePresent (m : MessageData) : Bool :=
  m.sourceQueue.isSome && strTruthy m.sourceConnectionString

/-- The arguments of one `deleteMessageFromQueue(queueName,
connectionString, sequenceNumber)` invocation. -/
structure DeleteCall where
  queueName : String
  connectionString : String
  sequenceNumber : String
deriving DecidableEq

/-- A broker operation observable from one item of a bulk operation: a
`sendMessageToQueue` call (destination queue plus the snapshot whose copy is
sent) or a `deleteMessageFromQueue` scan of a source queue. -/
inductive BrokerOp where
  | send (queueName : String) (m : MessageData)
  | scan (c : DeleteCall)
deriving DecidableEq

/-- Whether a broker operation is a source-queue scan. -/
def isScanOp : BrokerOp → Bool
  | BrokerOp.send _ _ => false
  | BrokerOp.scan _ => true

/-- What processing one item of a bulk operation did: the item's outcome
(`ok` = pushed to `successful`, `error e` = pushed to `failed` with text
`e`), the `deleteMessageFromQueue` invocation it made (if any), and the
broker operations it performed, in order. -/
structure ItemTrace where
  outcome : Except String Unit
  call : Option DeleteCall
  events : List BrokerOp

/-- One item of `moveMessageToQueue`'s loop: send the copy to the target
queue (a throwing send aborts the item), then — only when
`msg.sourceQueue && msg.sourceConnectionString` is truthy — scan the
item's own source queue for its sequence number; a scan that never finds
the target throws the not-found error, which the surrounding `catch` turns
into a failure entry. -/
def moveItem (targetQueueName : String) (sendOut : Except String Unit)
    (scanEnv : List (List ReceivedMsg)) (m : MessageData) : ItemTrace :=
  match sendOut with
  | Except.error e => ⟨Except.error e, none, [BrokerOp.send targetQueueName m]⟩
  | Except.ok _ =>
    match m.sourceQueue, m.sourceConnectionString with
    | some sq, some cs =>
      if cs == ("") then
        ⟨Except.ok (), none, [BrokerOp.send targetQueueName m]⟩
      else
        match deleteMessageFromQueue scanEnv m.sequenceNumber with
        | Except.ok _ =>
          ⟨Except.ok (), some ⟨sq.name, cs, m.sequenceNumber⟩,
            [BrokerOp.send targetQueueName m,
              BrokerOp.scan ⟨sq.name, cs, m.sequenceNumber⟩]⟩
        | Except.error e =>
          ⟨Except.error e, some ⟨sq.name, cs, m.sequenceNumber⟩,
            [BrokerOp.send targetQueueName m,
              BrokerOp.scan ⟨sq.name, cs, m.sequenceNumber⟩]⟩
    | _, _ => ⟨Except.ok (), none, [BrokerOp.send targetQueueName m]⟩

/-- One item of `deleteMessages`' loop: throw `Connection string missing`
when the item's own `sourceConnectionString` is falsy, otherwise scan
`queueName` (fixed from the first message of the batch) for the item's
sequence number. -/
def deleteItem (queueName : String) (scanEnv : List (List ReceivedMsg))
    (m : MessageData) : ItemTrace :=
  match m.sourceConnectionString with
  | none => ⟨Except.error ("Connection string missing"), none, []⟩
  | some cs =>
    if cs == ("") then
      ⟨Except.error ("Connection string missing"), none, []⟩
    else
      match deleteMessageFromQueue scanEnv m.sequenceNumber with
      | Except.ok _ =>
        ⟨Except.ok (), some ⟨queueName, cs, m.sequenceNumber⟩,
          [BrokerOp.scan ⟨queueName, cs, m.sequenceNumber⟩]⟩
      | Except.error e =>
        ⟨Except.error e, some ⟨queueName, cs, m.sequenceNumber⟩,
          [BrokerOp.scan ⟨queueName, cs, m.sequenceNumber⟩]⟩

/-- The accumulated result of a bulk operation: the `results.successful`
and `results.failed` arrays of the code, plus the
`deleteMessageFromQueue` invocations made, each tagged with the index of
the item that made it. -/
structure BulkOutcome where
  successful : List MessageData
  failed : List (MessageData × String)
  calls : List (Nat × DeleteCall)
deriving DecidableEq

/-- The shared shape of the `for (const msg of messages)` loops of
`moveMessageToQueue` and `deleteMessages`: process items strictly in input
order, appending each item to `successful` or `failed` according to its
outcome.  `f` is the body of the `try` block for the item at index `k`. -/
def bulkLoop (f : Nat → MessageData → ItemTrace) :
    Nat → List MessageData → BulkOutcome → BulkOutcome
  | _, [], acc => acc
  | k, m :: rest, acc =>
    bulkLoop f (k + 1) rest
      (match (f k m).outcome with
        | Except.ok _ =>
          { successful := acc.successful ++ [m],
            failed := acc.failed,
            calls := acc.calls ++ (match (f k m).call with
              | some c => [(k, c)]
              | none => []) }
        | Except.error e =>
          { successful := acc.successful,
            failed := acc.failed ++ [(m, e)],
            calls := acc.calls ++ (match (f k m).call with
              | some c => [(k, c)]
              | none => []) })

/-- `ConnectionsProvider.moveMessageToQueue` (after the target connection
string is resolved): the bulk move loop over the normalized message array.
`send k` is the outcome of the destination send for item `k`, and
`scanEnv k` the broker batches its source-queue scan sees. -/
def moveMessageToQueue (targetQueueName : String)
    (send : Nat → Except String Unit)
    (scanEnv : Nat → List (List ReceivedMsg))
    (msgs : List MessageData) : BulkOutcome :=
  bulkLoop (fun k m => moveItem targetQueueName (send k) (scanEnv k) m) 0 msgs
    ⟨[], [], []⟩

/-- The loop of `ConnectionsProvider.deleteMessages` once the first
message's provenance check has passed: every item is deleted from
`queueName` (the first message's source queue). -/
def deleteRun (queueName : String) (scanEnv : Nat → List (List ReceivedMsg))
    (msgs : List MessageData) : BulkOutcome :=
  bulkLoop (fun k m => deleteItem queueName (scanEnv k) m) 0 msgs ⟨[], [], []⟩

/-- `ConnectionsProvider.deleteMessages`: consult only the first message's
provenance up front; when its source queue or connection string is falsy,
abort with an error notification (modelled as `none`) before attempting any
deletion; otherwise run the loop against the first message's source queue
name.  (On an empty batch the code dereferences `messages[0]` and dies
before doing anything; that degenerate case is also modelled as `none`.) -/
def deleteMessages (scanEnv : Nat → List (List ReceivedMsg)) :
    List MessageData → Option BulkOutcome
  | [] => none
  | first :: rest =>
    match first.sourceQueue, first.sourceConnectionString with
    | some sq, some cs =>
      if cs == ("") then none
      else some (deleteRun sq.name scanEnv (first :: rest))
    | _, _ => none

/-- The send loop of `ConnectionsProvider.processMessageMove` (the
drag-and-drop move path): send each message to the target queue, stopping at
the first thrown send (the exception aborts the whole `withProgress` body
and is reported as one error).  Returns the broker operations performed and
the aborting error, if any.  No source-queue scan ever happens on this
path. -/
def processSends (targetQueueName : String) (send : Nat → Except String Unit) :
    Nat → List MessageData → List BrokerOp × Option String
  | _, [] => ([], none)
  | k, m :: rest =>
    match send k with
    | Except.error e => ([BrokerOp.send targetQueueName m], some e)
    | Except.ok _ =>
      ((BrokerOp.send targetQueueName m) ::
          (processSends targetQueueName send (k + 1) rest).1,
        (processSends targetQueueName send (k + 1) rest).2)

/-- `ConnectionsProvider.processMessageMove` (after the target connection
string is resolved). -/
def processMessageMove (targetQueueName : String)
    (send : Nat → Except String Unit) (msgs : List MessageData) :
    List BrokerOp × Option String :=
  processSends targetQueueName send 0 msgs

/-- The `moveToQueue` / `deleteMessages` webview handler step
(`QueueMessagesPanel`): before dispatching the command, attach the panel's
queue and connection string as provenance to every snapshot in the
payload. -/
def attachProvenance (panelQueue : Queue) (panelConnectionString : String)
    (msgs : List MessageData) : List MessageData :=
  msgs.map (fun m => { m with
    sourceQueue := some panelQueue,
    sourceConnectionString := some panelConnectionString })

/-- The snapshot object built by the webview's `handleDragStart` for a
dragged row: identifying fields only — no provenance keys at all. -/
def webviewDragPayload (seq mid body : String) (props : List (String × String))
    (enq : String) (dc : Nat) : MessageData :=
  ⟨seq, mid, body, props, enq, dc, none, none⟩

/-- The pending-drag branch of `ConnectionsProvider.handleDrop`: the
messages stored by the `startDrag` webview handler are passed, unchanged, to
`processMessageMove`. -/
def handleDropPending (pending : List MessageData) (targetQueueName : String)
    (send : Nat → Except String Unit) : List BrokerOp × Option String :=
  processMessageMove targetQueueName send pending

/-- The messages a bulk loop starting at index `k` pushes to `successful`,
in order. -/
def runOk (f : Nat → MessageData → ItemTrace) :
    Nat → List MessageData → List MessageData
  | _, [] => []
  | k, m :: rest =>
    match (f k m).outcome with
    | Except.ok _ => m :: runOk f (k + 1) rest
    | Except.error _ => runOk f (k + 1) rest

/-- The entries a bulk loop starting at index `k` pushes to `failed`, in
order. -/
def runFail (f : Nat → MessageData → ItemTrace) :
    Nat → List MessageData → List (MessageData × String)
  | _, [] => []
  | k, m :: rest =>
    match (f k m).outcome with
    | Except.ok _ => runFail f (k + 1) rest
    | Except.error e => (m, e) :: runFail f (k + 1) rest

/-- The indexed `deleteMessageFromQueue` invocations a bulk loop starting at
index `k` makes, in order. -/
def runCalls (f : Nat → MessageData → ItemTrace) :
    Nat → List MessageData → List (Nat × DeleteCall)
  | _, [] => []
  | k, m :: rest =>
    (match (f k m).call with
      | some c => [(k, c)]
      | none => []) ++ runCalls f (k + 1) rest

theorem bulkLoop_eq (f : Nat → MessageData → ItemTrace) :
    ∀ (msgs : List MessageData) (k : Nat) (acc : BulkOutcome),
      bulkLoop f k msgs acc =
        ⟨acc.successful ++ runOk f k msgs,
          acc.failed ++ runFail f k msgs,
          acc.calls ++ runCalls f k msgs⟩ := by
  intro msgs
  induction msgs with
  | nil => intro k acc; simp [bulkLoop, runOk, runFail, runCalls]
  | cons m rest ih =>
    intro k acc
    cases ho : (f k m).outcome with
    | ok u =>
      cases hc : (f k m).call with
      | some c =>
        simp only [bulkLoop, ho, hc, ih]
        simp [runOk, runFail, runCalls, ho, hc, List.append_assoc]
      | none =>
        simp only [bulkLoop, ho, hc, ih]
        simp [runOk, runFail, runCalls, ho, hc, List.append_assoc]
    | error e =>
      cases hc : (f k m).call with
      | some c =>
        simp only [bulkLoop, ho, hc, ih]
        simp [runOk, runFail, runCalls, ho, hc, List.append_assoc]
      | none =>
        simp only [bulkLoop, ho, hc, ih]
        simp [runOk, runFail, runCalls, ho, hc, List.append_assoc]

theorem runOk_sublist (f : Nat → MessageData → ItemTrace) :
    ∀ (msgs : List MessageData) (k : Nat),
      List.Sublist (runOk f k msgs) msgs := by
  intro msgs
  induction msgs with
  | nil => intro k; simp [runOk]
  | cons m rest ih =>
    intro k
    cases ho : (f k m).outcome with
    | ok u =>
      simp only [runOk, ho]
      exact List.Sublist.cons₂ m (ih (k + 1))
    | error e =>
      simp only [runOk, ho]
      exact List.Sublist.cons m (ih (k + 1))

theorem runFail_sublist (f : Nat → MessageData → ItemTrace) :
    ∀ (msgs : List MessageData) (k : Nat),
      List.Sublist ((runFail f k msgs).map Prod.fst) msgs := by
  intro msgs
  induction msgs with
  | nil => intro k; simp [runFail]
  | cons m rest ih =>
    intro k
    cases ho : (f k m).outcome with
    | ok u =>
      simp only [runFail, ho]
      exact List.Sublist.cons m (ih (k + 1))
    | error e =>
      simp only [runFail, ho, List.map_cons]
      exact List.Sublist.cons₂ m (ih (k + 1))

theorem runOk_runFail_length (f : Nat → MessageData → ItemTrace) :
    ∀ (msgs : List MessageData) (k : Nat),
      (runOk f k msgs).length + (runFail f k msgs).length = msgs.length := by
  intro msgs
  induction msgs with
  | nil => intro k; simp [runOk, runFail]
  | cons m rest ih =>
    intro k
    cases ho : (f k m).outcome with
    | ok u =>
      simp only [runOk, runFail, ho, List.length_cons]
      have := ih (k + 1)
      omega
    | error e =>
      simp only [runOk, runFail, ho, List.length_cons]
      have := ih (k + 1)
      omega

theorem runAll_ok (f : Nat → MessageData → ItemTrace) :
    ∀ (msgs : List MessageData) (k : Nat),
      (∀ (j : Nat) (hj : j < msgs.length),
        (f (k + j) (msgs.get ⟨j, hj⟩)).outcome = Except.ok ()) →
      runOk f k msgs = msgs ∧ runFail f k msgs = [] := by
  intro msgs
  induction msgs with
  | nil => intro k _; exact ⟨rfl, rfl⟩
  | cons m rest ih =>
    intro k h
    have h0 : (f k m).outcome = Except.ok () := by
      have hx := h 0 (Nat.succ_pos rest.length)
      simpa using hx
    have hrest := ih (k + 1) (fun j hj => by
      have hx := h (j + 1) (Nat.succ_lt_succ hj)
      have harith : k + (j + 1) = (k + 1) + j := by omega
      rw [harith] at hx
      simpa using hx)
    constructor
    · simp [runOk, h0, hrest.1]
    · simp [runFail, h0, hrest.2]

theorem mem_runFail (f : Nat → MessageData → ItemTrace) :
    ∀ (msgs : List MessageData) (k j : Nat) (hj : j < msgs.length) (e : String),
      (f (k + j) (msgs.get ⟨j, hj⟩)).outcome = Except.error e →
      (msgs.get ⟨j, hj⟩, e) ∈ runFail f k msgs := by
  intro msgs
  induction msgs with
  | nil => intro k j hj; exact absurd hj (Nat.not_lt_zero j)
  | cons m rest ih =>
    intro k j hj e he
    cases j with
    | zero =>
      have h0 : (f k m).outcome = Except.error e := by simpa using he
      simp [runFail, h0]
    | succ j0 =>
      have harith : k + (j0 + 1) = (k + 1) + j0 := by omega
      rw [harith] at he
      have hj0 : j0 < rest.length := Nat.lt_of_succ_lt_succ hj
      have hmem := ih (k + 1) j0 hj0 e (by simpa using he)
      cases ho : (f k m).outcome with
      | ok u =>
        simp only [runFail, ho, List.get_cons_succ]
        simpa using hmem
      | error e0 =>
        simp only [runFail, ho, List.get_cons_succ]
        exact List.mem_cons_of_mem _ (by simpa using hmem)

theorem runCalls_ge (f : Nat → MessageData → ItemTrace) :
    ∀ (msgs : List MessageData) (k : Nat),
      ∀ p ∈ runCalls f k msgs, k ≤ p.1 := by
  intro msgs
  induction msgs with
  | nil => intro k p hp; simp [runCalls] at hp
  | cons m rest ih =>
    intro k p hp
    cases hc : (f k m).call with
    | some c =>
      simp only [runCalls, hc, List.singleton_append] at hp
      rcases List.mem_cons.mp hp with h1 | h1
      · subst h1; exact Nat.le_refl k
      · exact Nat.le_of_succ_le (ih (k + 1) p h1)
    | none =>
      simp only [runCalls, hc, List.nil_append] at hp
      exact Nat.le_of_succ_le (ih (k + 1) p hp)

theorem runCalls_filter_nil (f : Nat → MessageData → ItemTrace) :
    ∀ (msgs : List MessageData) (k j : Nat) (hj : j < msgs.length),
      (f (k + j) (msgs.get ⟨j, hj⟩)).call = none →
      (runCalls f k msgs).filter (fun p => p.1 == k + j) = [] := by
  intro msgs
  induction msgs with
  | nil => intro k j hj; exact absurd hj (Nat.not_lt_zero j)
  | cons m rest ih =>
    intro k j hj hc
    cases j with
    | zero =>
      have h0 : (f k m).call = none := by simpa using hc
      simp only [runCalls, h0, List.nil_append]
      apply List.filter_eq_nil_iff.mpr
      intro p hp
      have hge := runCalls_ge f rest (k + 1) p hp
      simp only [beq_iff_eq]
      omega
    | succ j0 =>
      have harith : k + (j0 + 1) = (k + 1) + j0 := by omega
      have hj0 : j0 < rest.length := Nat.lt_of_succ_lt_succ hj
      have hc0 : (f ((k + 1) + j0) (rest.get ⟨j0, hj0⟩)).call = none := by
        rw [harith] at hc
        simpa using hc
      have htail := ih (k + 1) j0 hj0 hc0
      cases hcall : (f k m).call with
      | some c =>
        simp only [runCalls, hcall, List.singleton_append, List.filter_cons]
        have hne : ((k, c).1 == k + (j0 + 1)) = false := by
          simp only [beq_eq_false_iff_ne]
          omega
        simp only [hne, Bool.false_eq_true, if_false]
        rw [harith]
        exact htail
      | none =>
        simp only [runCalls, hcall, List.nil_append]
        rw [harith]
        exact htail

theorem runCalls_queueName (f : Nat → MessageData → ItemTrace) (qn : String)
    (hq : ∀ (k : Nat) (m : MessageData) (c : DeleteCall),
      (f k m).call = some c → c.queueName = qn) :
    ∀ (msgs : List MessageData) (k : Nat),
      ∀ p ∈ runCalls f k msgs, p.2.queueName = qn := by
  intro msgs
  induction msgs with
  | nil => intro k p hp; simp [runCalls] at hp
  | cons m rest ih =>
    intro k p hp
    cases hc : (f k m).call with
    | some c =>
      simp only [runCalls, hc, List.singleton_append] at hp
      rcases List.mem_cons.mp hp with h1 | h1
      · subst h1; exact hq k m c hc
      · exact ih (k + 1) p h1
    | none =>
      simp only [runCalls, hc, List.nil_append] at hp
      exact ih (k + 1) p hp

theorem moveItem_send_error (targetQueueName : String)
    (scanEnv : List (List ReceivedMsg)) (m : MessageData) (e : String) :
    (moveItem targetQueueName (Except.error e) scanEnv m).outcome = Except.error e ∧
    (moveItem targetQueueName (Except.error e) scanEnv m).call = none ∧
    (moveItem targetQueueName (Except.error e) scanEnv m).events =
      [BrokerOp.send targetQueueName m] :=
  ⟨rfl, rfl, rfl⟩

theorem moveItem_outcome_ok (targetQueueName : String)
    (scanEnv : List (List ReceivedMsg)) (m : MessageData)
    (hdel : provenancePresent m = true →
      (scanDelete scanEnv m.sequenceNumber).found = true) :
    (moveItem targetQueueName (Except.ok ()) scanEnv m).outcome = Except.ok () := by
  unfold moveItem
  cases hsq : m.sourceQueue with
  | none => cases m.sourceConnectionString <;> rfl
  | some sq =>
    cases hcs : m.sourceConnectionString with
    | none => rfl
    | some cs =>
      by_cases hcse : cs == ("")
      · simp [hcse]
      · have hpp : provenancePresent m = true := by
          simp [provenancePresent, hsq, hcs, strTruthy, hcse]
        have hfound := hdel hpp
        simp [hcse, deleteMessageFromQueue, hfound]

theorem moveItem_not_found (targetQueueName : String)
    (scanEnv : List (List ReceivedMsg)) (m : MessageData) (sq : Queue) (cs : String)
    (hsq : m.sourceQueue = some sq) (hcs : m.sourceConnectionString = some cs)
    (hcse : (cs == ("")) = false)
    (hnf : (scanDelete scanEnv m.sequenceNumber).found = false) :
    (moveItem targetQueueName (Except.ok ()) scanEnv m).outcome =
      Except.error ((("Message ")) ++ m.sequenceNumber ++ (" not found in queue")) ∧
    (moveItem targetQueueName (Except.ok ()) scanEnv m).events =
      [BrokerOp.send targetQueueName m,
        BrokerOp.scan ⟨sq.name, cs, m.sequenceNumber⟩] := by
  unfold moveItem
  rw [hsq, hcs]
  simp [hcse, deleteMessageFromQueue, hnf]

theorem moveItem_events_of_provenance (targetQueueName : String)
    (scanEnv : List (List ReceivedMsg)) (m : MessageData) (sq : Queue) (cs : String)
    (hsq : m.sourceQueue = some sq) (hcs : m.sourceConnectionString = some cs)
    (hcse : (cs == ("")) = false) :
    (moveItem targetQueueName (Except.ok ()) scanEnv m).events =
      [BrokerOp.send targetQueueName m,
        BrokerOp.scan ⟨sq.name, cs, m.sequenceNumber⟩] := by
  unfold moveItem
  rw [hsq, hcs]
  cases hdel : deleteMessageFromQueue scanEnv m.sequenceNumber <;>
    simp [hcse, hdel]

theorem deleteItem_outcome_ok (queueName : String)
    (scanEnv : List (List ReceivedMsg)) (m : MessageData) (cs : String)
    (hcs : m.sourceConnectionString = some cs) (hcse : (cs == ("")) = false)
    (hfound : (scanDelete scanEnv m.sequenceNumber).found = true) :
    (deleteItem queueName scanEnv m).outcome = Except.ok () := by
  unfold deleteItem
  rw [hcs]
  simp [hcse, deleteMessageFromQueue, hfound]

theorem deleteItem_call_queueName (queueName : String)
    (scanEnv : List (List ReceivedMsg)) (m : MessageData) (c : DeleteCall)
    (hc : (deleteItem queueName scanEnv m).call = some c) :
    c.queueName = queueName := by
  unfold deleteItem at hc
  cases hcs : m.sourceConnectionString with
  | none => rw [hcs] at hc; cases hc
  | some cs =>
    rw [hcs] at hc
    by_cases hcse : cs == ("")
    · simp [hcse] at hc
    · cases hdel : deleteMessageFromQueue scanEnv m.sequenceNumber with
      | ok st =>
        simp [hcse, hdel] at hc
        rw [hc.symm]
      | error e =>
        simp [hcse, hdel] at hc
        rw [hc.symm]

theorem processSends_no_scan (targetQueueName : String)
    (send : Nat → Except String Unit) :
    ∀ (msgs : List MessageData) (k : Nat),
      (processSends targetQueueName send k msgs).1.filter isScanOp = [] := by
  intro msgs
  induction msgs with
  | nil => intro k; rfl
  | cons m rest ih =>
    intro k
    cases hs : send k with
    | error e => simp [processSends, hs, isScanOp]
    | ok u => simp [processSends, hs, isScanOp, ih (k + 1)]

/-- Claim C3: in a bulk move, if the destination send for item `k` throws
with message `e`, then item `k` appears in the failed list paired with `e`,
and no `deleteMessageFromQueue` call is made for item `k` (neither in the
batch's call log nor in the item's own trace). -/
theorem claim_c3_send_throw (targetQueueName : String)
    (send : Nat → Except String Unit) (scanEnv : Nat → List (List ReceivedMsg))
    (msgs : List MessageData) (k : Nat) (hk : k < msgs.length) (e : String)
    (hsend : send k = Except.error e) :
    (msgs.get ⟨k, hk⟩, e) ∈
      (moveMessageToQueue targetQueueName send scanEnv msgs).failed ∧
    (moveMessageToQueue targetQueueName send scanEnv msgs).calls.filter
      (fun p => p.1 == k) = [] ∧
    (moveItem targetQueueName (send k) (scanEnv k) (msgs.get ⟨k, hk⟩)).call = none := by
  have hout : ((fun kk mm => moveItem targetQueueName (send kk) (scanEnv kk) mm)
      (0 + k) (msgs.get ⟨k, hk⟩)).outcome = Except.error e := by
    show (moveItem targetQueueName (send (0 + k)) (scanEnv (0 + k))
      (msgs.get ⟨k, hk⟩)).outcome = Except.error e
    rw [Nat.zero_add, hsend]
    rfl
  have hcall : ((fun kk mm => moveItem targetQueueName (send kk) (scanEnv kk) mm)
      (0 + k) (msgs.get ⟨k, hk⟩)).call = none := by
    show (moveItem targetQueueName (send (0 + k)) (scanEnv (0 + k))
      (msgs.get ⟨k, hk⟩)).call = none
    rw [Nat.zero_add, hsend]
    rfl
  refine ⟨?_, ?_, ?_⟩
  · have hmem := mem_runFail
      (fun kk mm => moveItem targetQueueName (send kk) (scanEnv kk) mm)
      msgs 0 k hk e hout
    unfold moveMessageToQueue
    rw [bulkLoop_eq]
    simpa using hmem
  · have hfilter := runCalls_filter_nil
      (fun kk mm => moveItem targetQueueName (send kk) (scanEnv kk) mm)
      msgs 0 k hk hcall
    rw [Nat.zero_add] at hfilter
    unfold moveMessageToQueue
    rw [bulkLoop_eq]
    simpa using hfilter
  · rw [hsend]
    rfl

/-- Witness for C3: a one-message batch whose send throws with message
`boom`; the item lands in the failed list with that text and makes no
deletion call. -/
theorem claim_c3_send_throw_witness :
    ((⟨("7"), ("id1"), ("b"), [], ("t"), 0, some ⟨("q1"), ("c1")⟩,
        some ("cs1")⟩ : MessageData), ("boom")) ∈
      (moveMessageToQueue ("q2") (fun _ => Except.error ("boom"))
        (fun _ => [])
        [⟨("7"), ("id1"), ("b"), [], ("t"), 0, some ⟨("q1"), ("c1")⟩,
          some ("cs1")⟩]).failed ∧
    (moveMessageToQueue ("q2") (fun _ => Except.error ("boom")) (fun _ => [])
      [⟨("7"), ("id1"), ("b"), [], ("t"), 0, some ⟨("q1"), ("c1")⟩,
        some ("cs1")⟩]).calls.filter (fun p => p.1 == 0) = [] ∧
    (moveItem ("q2") ((fun (_ : Nat) => Except.error ("boom")) 0)
      ((fun (_ : Nat) => ([] : List (List ReceivedMsg))) 0)
      ([(⟨("7"), ("id1"), ("b"), [], ("t"), 0, some ⟨("q1"), ("c1")⟩,
        some ("cs1")⟩ : MessageData)].get ⟨0, Nat.succ_pos 0⟩)).call = none :=
  claim_c3_send_throw ("q2") (fun _ => Except.error ("boom")) (fun _ => [])
    [⟨("7"), ("id1"), ("b"), [], ("t"), 0, some ⟨("q1"), ("c1")⟩, some ("cs1")⟩]
    0 (Nat.succ_pos 0) ("boom") rfl

/-- Claim C4: in a bulk move, if item `k`'s send succeeds, its provenance is
present, and the source-queue scan does not find its sequence number within
the attempt budget, then item `k` appears in the failed list (with the
not-found message) even though the copy was already sent to the destination:
the item's broker operations are exactly the destination send followed by
the source scan — there is no compensating operation that removes the
copy. -/
theorem claim_c4_not_found_failure (targetQueueName : String)
    (send : Nat → Except String Unit) (scanEnv : Nat → List (List ReceivedMsg))
    (msgs : List MessageData) (k : Nat) (hk : k < msgs.length)
    (sq : Queue) (cs : String)
    (hsend : send k = Except.ok ())
    (hsq : (msgs.get ⟨k, hk⟩).sourceQueue = some sq)
    (hcs : (msgs.get ⟨k, hk⟩).sourceConnectionString = some cs)
    (hcse : (cs == ("")) = false)
    (hnf : (scanDelete (scanEnv k) (msgs.get ⟨k, hk⟩).sequenceNumber).found = false) :
    ((msgs.get ⟨k, hk⟩),
        (("Message ")) ++ (msgs.get ⟨k, hk⟩).sequenceNumber ++
          (" not found in queue")) ∈
      (moveMessageToQueue targetQueueName send scanEnv msgs).failed ∧
    (moveItem targetQueueName (send k) (scanEnv k) (msgs.get ⟨k, hk⟩)).events =
      [BrokerOp.send targetQueueName (msgs.get ⟨k, hk⟩),
        BrokerOp.scan ⟨sq.name, cs, (msgs.get ⟨k, hk⟩).sequenceNumber⟩] := by
  have hitem := moveItem_not_found targetQueueName (scanEnv k) (msgs.get ⟨k, hk⟩)
    sq cs hsq hcs hcse hnf
  have hout : ((fun kk mm => moveItem targetQueueName (send kk) (scanEnv kk) mm)
      (0 + k) (msgs.get ⟨k, hk⟩)).outcome =
      Except.error ((("Message ")) ++ (msgs.get ⟨k, hk⟩).sequenceNumber ++
        (" not found in queue")) := by
    show (moveItem targetQueueName (send (0 + k)) (scanEnv (0 + k))
      (msgs.get ⟨k, hk⟩)).outcome = _
    rw [Nat.zero_add, hsend]
    exact hitem.1
  refine ⟨?_, ?_⟩
  · have hmem := mem_runFail
      (fun kk mm => moveItem targetQueueName (send kk) (scanEnv kk) mm)
      msgs 0 k hk _ hout
    unfold moveMessageToQueue
    rw [bulkLoop_eq]
    simpa using hmem
  · rw [hsend]
    exact hitem.2

/-- Witness for C4: a one-message batch with provenance present, a
succeeding send, and a scan environment with no messages at all (the first
attempt returns an empty batch, so the target is never found). -/
theorem claim_c4_not_found_failure_witness :
    ((⟨("7"), ("id1"), ("b"), [], ("t"), 0, some ⟨("q1"), ("c1")⟩,
        some ("cs1")⟩ : MessageData),
      (("Message ")) ++
        ([(⟨("7"), ("id1"), ("b"), [], ("t"), 0, some ⟨("q1"), ("c1")⟩,
          some ("cs1")⟩ : MessageData)].get ⟨0, Nat.succ_pos 0⟩).sequenceNumber ++
        (" not found in queue")) ∈
      (moveMessageToQueue ("q2") (fun _ => Except.ok ()) (fun _ => [])
        [⟨("7"), ("id1"), ("b"), [], ("t"), 0, some ⟨("q1"), ("c1")⟩,
          some ("cs1")⟩]).failed ∧
    (moveItem ("q2") ((fun (_ : Nat) => Except.ok ()) 0)
      ((fun (_ : Nat) => ([] : List (List ReceivedMsg))) 0)
      ([(⟨("7"), ("id1"), ("b"), [], ("t"), 0, some ⟨("q1"), ("c1")⟩,
        some ("cs1")⟩ : MessageData)].get ⟨0, Nat.succ_pos 0⟩)).events =
      [BrokerOp.send ("q2")
          ([(⟨("7"), ("id1"), ("b"), [], ("t"), 0, some ⟨("q1"), ("c1")⟩,
            some ("cs1")⟩ : MessageData)].get ⟨0, Nat.succ_pos 0⟩),
        BrokerOp.scan ⟨("q1"), ("cs1"),
          ([(⟨("7"), ("id1"), ("b"), [], ("t"), 0, some ⟨("q1"), ("c1")⟩,
            some ("cs1")⟩ : MessageData)].get ⟨0, Nat.succ_pos 0⟩).sequenceNumber⟩] :=
  claim_c4_not_found_failure ("q2") (fun _ => Except.ok ()) (fun _ => [])
    [⟨("7"), ("id1"), ("b"), [], ("t"), 0, some ⟨("q1"), ("c1")⟩, some ("cs1")⟩]
    0 (Nat.succ_pos 0) ⟨("q1"), ("c1")⟩ ("cs1") rfl rfl rfl (by decide) (by decide)

theorem deleteMessages_cons (scanEnv : Nat → List (List ReceivedMsg))
    (first : MessageData) (rest : List MessageData) :
    deleteMessages scanEnv (first :: rest) =
      (match first.sourceQueue, first.sourceConnectionString with
        | some sq, some cs =>
          if cs == ("") then none
          else some (deleteRun sq.name scanEnv (first :: rest))
        | _, _ => none) := rfl

/-- Claim C2: for a batch of N messages, when every destination send and
every source-queue deletion succeeds, the bulk move's outcome has all N
messages in `successful` and an empty `failed` list; likewise for the bulk
delete.  (For the move, an item whose provenance guard is falsy performs no
deletion, so its deletion trivially succeeds; for the delete, an item's
deletion succeeds when its own connection string is truthy and its scan
finds the sequence number.) -/
theorem claim_c2_all_success (targetQueueName : String)
    (send : Nat → Except String Unit)
    (scanEnvM scanEnvD : Nat → List (List ReceivedMsg))
    (msgs : List MessageData) (first : MessageData) (rest : List MessageData)
    (sq : Queue) (cs : String) :
    ((∀ (j : Nat) (hj : j < msgs.length),
        send j = Except.ok () ∧
        (provenancePresent (msgs.get ⟨j, hj⟩) = true →
          (scanDelete (scanEnvM j) (msgs.get ⟨j, hj⟩).sequenceNumber).found = true)) →
      (moveMessageToQueue targetQueueName send scanEnvM msgs).successful = msgs ∧
      (moveMessageToQueue targetQueueName send scanEnvM msgs).failed = [] ∧
      (moveMessageToQueue targetQueueName send scanEnvM msgs).successful.length =
        msgs.length) ∧
    (first.sourceQueue = some sq → first.sourceConnectionString = some cs →
      (cs == ("")) = false →
      (∀ (j : Nat) (hj : j < (first :: rest).length),
        ∃ csj, ((first :: rest).get ⟨j, hj⟩).sourceConnectionString = some csj ∧
          (csj == ("")) = false ∧
          (scanDelete (scanEnvD j)
            ((first :: rest).get ⟨j, hj⟩).sequenceNumber).found = true) →
      ∃ out, deleteMessages scanEnvD (first :: rest) = some out ∧
        out.successful = first :: rest ∧ out.failed = [] ∧
        out.successful.length = (first :: rest).length) := by
  constructor
  · intro h
    have hall : ∀ (j : Nat) (hj : j < msgs.length),
        ((fun kk mm => moveItem targetQueueName (send kk) (scanEnvM kk) mm)
          (0 + j) (msgs.get ⟨j, hj⟩)).outcome = Except.ok () := by
      intro j hj
      show (moveItem targetQueueName (send (0 + j)) (scanEnvM (0 + j))
        (msgs.get ⟨j, hj⟩)).outcome = Except.ok ()
      rw [Nat.zero_add, (h j hj).1]
      exact moveItem_outcome_ok targetQueueName (scanEnvM j) (msgs.get ⟨j, hj⟩)
        (h j hj).2
    have hrun := runAll_ok
      (fun kk mm => moveItem targetQueueName (send kk) (scanEnvM kk) mm)
      msgs 0 hall
    unfold moveMessageToQueue
    rw [bulkLoop_eq]
    simp [hrun.1, hrun.2]
  · intro hsq hcs hcse hall
    have hallD : ∀ (j : Nat) (hj : j < (first :: rest).length),
        ((fun kk mm => deleteItem sq.name (scanEnvD kk) mm)
          (0 + j) ((first :: rest).get ⟨j, hj⟩)).outcome = Except.ok () := by
      intro j hj
      rcases hall j hj with ⟨csj, hc1, hc2, hc3⟩
      show (deleteItem sq.name (scanEnvD (0 + j))
        ((first :: rest).get ⟨j, hj⟩)).outcome = Except.ok ()
      rw [Nat.zero_add]
      exact deleteItem_outcome_ok sq.name (scanEnvD j) _ csj hc1 hc2 hc3
    have hrun := runAll_ok
      (fun kk mm => deleteItem sq.name (scanEnvD kk) mm)
      (first :: rest) 0 hallD
    refine ⟨deleteRun sq.name scanEnvD (first :: rest), ?_, ?_, ?_, ?_⟩
    · rw [deleteMessages_cons, hsq, hcs]
      simp [hcse]
    · unfold deleteRun
      rw [bulkLoop_eq]
      simp [hrun.1]
    · unfold deleteRun
      rw [bulkLoop_eq]
      simp [hrun.2]
    · unfold deleteRun
      rw [bulkLoop_eq]
      simp [hrun.1]

/-- Witness for C2: a singleton batch whose send succeeds and whose scan
finds the message (the first batch holds the matching sequence number), for
both the bulk move and the bulk delete. -/
theorem claim_c2_all_success_witness :
    ((moveMessageToQueue ("q2") (fun _ => Except.ok ())
        (fun _ => [[⟨some ("7"), ("x")⟩]])
        [⟨("7"), ("id1"), ("b"), [], ("t"), 0, some ⟨("q1"), ("c1")⟩,
          some ("cs1")⟩]).successful =
      [⟨("7"), ("id1"), ("b"), [], ("t"), 0, some ⟨("q1"), ("c1")⟩,
        some ("cs1")⟩] ∧
      (moveMessageToQueue ("q2") (fun _ => Except.ok ())
        (fun _ => [[⟨some ("7"), ("x")⟩]])
        [⟨("7"), ("id1"), ("b"), [], ("t"), 0, some ⟨("q1"), ("c1")⟩,
          some ("cs1")⟩]).failed = [] ∧
      (moveMessageToQueue ("q2") (fun _ => Except.ok ())
        (fun _ => [[⟨some ("7"), ("x")⟩]])
        [⟨("7"), ("id1"), ("b"), [], ("t"), 0, some ⟨("q1"), ("c1")⟩,
          some ("cs1")⟩]).successful.length =
        ([⟨("7"), ("id1"), ("b"), [], ("t"), 0, some ⟨("q1"), ("c1")⟩,
          some ("cs1")⟩] : List MessageData).length) ∧
    (∃ out, deleteMessages (fun _ => [[⟨some ("7"), ("x")⟩]])
        ([(⟨("7"), ("id1"), ("b"), [], ("t"), 0, some ⟨("q1"), ("c1")⟩,
          some ("cs1")⟩ : MessageData)]) = some out ∧
      out.successful = [⟨("7"), ("id1"), ("b"), [], ("t"), 0,
        some ⟨("q1"), ("c1")⟩, some ("cs1")⟩] ∧
      out.failed = [] ∧
      out.successful.length =
        ([⟨("7"), ("id1"), ("b"), [], ("t"), 0, some ⟨("q1"), ("c1")⟩,
          some ("cs1")⟩] : List MessageData).length) := by
  have h := claim_c2_all_success ("q2") (fun _ => Except.ok ())
    (fun _ => [[⟨some ("7"), ("x")⟩]]) (fun _ => [[⟨some ("7"), ("x")⟩]])
    [⟨("7"), ("id1"), ("b"), [], ("t"), 0, some ⟨("q1"), ("c1")⟩, some ("cs1")⟩]
    (⟨("7"), ("id1"), ("b"), [], ("t"), 0, some ⟨("q1"), ("c1")⟩, some ("cs1")⟩)
    [] ⟨("q1"), ("c1")⟩ ("cs1")
  constructor
  · exact h.1 (fun j hj => by
      cases j with
      | zero =>
        refine ⟨rfl, fun _ => ?_⟩
        show (scanDelete [[⟨some ("7"), ("x")⟩]] ("7")).found = true
        decide
      | succ j0 => exact absurd hj (by simp))
  · exact h.2 rfl rfl (by decide) (fun j hj => by
      cases j with
      | zero =>
        refine ⟨("cs1"), rfl, by decide, ?_⟩
        show (scanDelete [[⟨some ("7"), ("x")⟩]] ("7")).found = true
        decide
      | succ j0 => exact absurd hj (by simp))

/-- Claim C8: both bulk operations process items strictly sequentially in
input order, so the successful list and the failed list are order-preserving
subsequences of the input batch and together partition it (their lengths sum
to the batch size). -/
theorem claim_c8_sequential_partition :
    (∀ (targetQueueName : String) (send : Nat → Except String Unit)
        (scanEnv : Nat → List (List ReceivedMsg)) (msgs : List MessageData),
      List.Sublist
        (moveMessageToQueue targetQueueName send scanEnv msgs).successful msgs ∧
      List.Sublist
        ((moveMessageToQueue targetQueueName send scanEnv msgs).failed.map
          Prod.fst) msgs ∧
      (moveMessageToQueue targetQueueName send scanEnv msgs).successful.length +
        (moveMessageToQueue targetQueueName send scanEnv msgs).failed.length =
        msgs.length) ∧
    (∀ (scanEnv : Nat → List (List ReceivedMsg)) (msgs : List MessageData)
        (out : BulkOutcome),
      deleteMessages scanEnv msgs = some out →
      List.Sublist out.successful msgs ∧
      List.Sublist (out.failed.map Prod.fst) msgs ∧
      out.successful.length + out.failed.length = msgs.length) := by
  constructor
  · intro tq send scanEnv msgs
    unfold moveMessageToQueue
    rw [bulkLoop_eq]
    refine ⟨?_, ?_, ?_⟩
    · simpa using runOk_sublist
        (fun kk mm => moveItem tq (send kk) (scanEnv kk) mm) msgs 0
    · simpa using runFail_sublist
        (fun kk mm => moveItem tq (send kk) (scanEnv kk) mm) msgs 0
    · simpa using runOk_runFail_length
        (fun kk mm => moveItem tq (send kk) (scanEnv kk) mm) msgs 0
  · intro scanEnv msgs out hout
    cases msgs with
    | nil => cases hout
    | cons first rest =>
      rw [deleteMessages_cons] at hout
      cases hsq : first.sourceQueue with
      | none =>
        rw [hsq] at hout
        cases first.sourceConnectionString <;> cases hout
      | some sq =>
        cases hcs : first.sourceConnectionString with
        | none => rw [hsq, hcs] at hout; cases hout
        | some cs =>
          rw [hsq, hcs] at hout
          have hout2 : (if (cs == ("")) = true then none
              else some (deleteRun sq.name scanEnv (first :: rest))) = some out := hout
          by_cases hcse : cs == ("")
          · rw [if_pos hcse] at hout2; cases hout2
          · rw [if_neg hcse] at hout2
            have hrun : deleteRun sq.name scanEnv (first :: rest) = out :=
              Option.some.inj hout2
            rw [hrun.symm]
            unfold deleteRun
            rw [bulkLoop_eq]
            refine ⟨?_, ?_, ?_⟩
            · simpa using runOk_sublist
                (fun kk mm => deleteItem sq.name (scanEnv kk) mm) (first :: rest) 0
            · simpa using runFail_sublist
                (fun kk mm => deleteItem sq.name (scanEnv kk) mm) (first :: rest) 0
            · simpa using runOk_runFail_length
                (fun kk mm => deleteItem sq.name (scanEnv kk) mm) (first :: rest) 0

/-- Witness for C8 (the delete conjunct carries the hypothesis): on a
concrete singleton batch the delete outcome's lists are subsequences of the
input and their lengths sum to 1. -/
theorem claim_c8_sequential_partition_witness :
    List.Sublist
      (deleteRun ("q1") (fun _ => [[⟨some ("7"), ("x")⟩]])
        [⟨("7"), ("id1"), ("b"), [], ("t"), 0, some ⟨("q1"), ("c1")⟩,
          some ("cs1")⟩]).successful
      [⟨("7"), ("id1"), ("b"), [], ("t"), 0, some ⟨("q1"), ("c1")⟩,
        some ("cs1")⟩] ∧
    List.Sublist
      ((deleteRun ("q1") (fun _ => [[⟨some ("7"), ("x")⟩]])
        [⟨("7"), ("id1"), ("b"), [], ("t"), 0, some ⟨("q1"), ("c1")⟩,
          some ("cs1")⟩]).failed.map Prod.fst)
      [⟨("7"), ("id1"), ("b"), [], ("t"), 0, some ⟨("q1"), ("c1")⟩,
        some ("cs1")⟩] ∧
    (deleteRun ("q1") (fun _ => [[⟨some ("7"), ("x")⟩]])
        [⟨("7"), ("id1"), ("b"), [], ("t"), 0, some ⟨("q1"), ("c1")⟩,
          some ("cs1")⟩]).successful.length +
      (deleteRun ("q1") (fun _ => [[⟨some ("7"), ("x")⟩]])
        [⟨("7"), ("id1"), ("b"), [], ("t"), 0, some ⟨("q1"), ("c1")⟩,
          some ("cs1")⟩]).failed.length =
      ([⟨("7"), ("id1"), ("b"), [], ("t"), 0, some ⟨("q1"), ("c1")⟩,
        some ("cs1")⟩] : List MessageData).length :=
  claim_c8_sequential_partition.2 (fun _ => [[⟨some ("7"), ("x")⟩]])
    [⟨("7"), ("id1"), ("b"), [], ("t"), 0, some ⟨("q1"), ("c1")⟩, some ("cs1")⟩]
    (deleteRun ("q1") (fun _ => [[⟨some ("7"), ("x")⟩]])
      [⟨("7"), ("id1"), ("b"), [], ("t"), 0, some ⟨("q1"), ("c1")⟩,
        some ("cs1")⟩])
    rfl

/-- Claim C10: the bulk delete consults only the first message's provenance
up front.  If the first message's source queue or source connection string
is missing (or the empty string, which JavaScript treats as falsy), the
whole operation aborts with an error notification and attempts no deletion
(modelled as `none`).  Otherwise the operation runs and every
`deleteMessageFromQueue` call it makes targets the first message's source
queue name, regardless of the individual item's own `sourceQueue` field. -/
theorem claim_c10_first_provenance (scanEnv : Nat → List (List ReceivedMsg))
    (first : MessageData) (rest : List MessageData) :
    ((first.sourceQueue = none ∨ first.sourceConnectionString = none ∨
        first.sourceConnectionString = some ("")) →
      deleteMessages scanEnv (first :: rest) = none) ∧
    (∀ (sq : Queue) (cs : String), first.sourceQueue = some sq →
      first.sourceConnectionString = some cs → (cs == ("")) = false →
      ∃ out, deleteMessages scanEnv (first :: rest) = some out ∧
        ∀ p ∈ out.calls, p.2.queueName = sq.name) := by
  constructor
  · intro h
    rw [deleteMessages_cons]
    rcases h with h | h | h
    · rw [h]
    · rw [h]
      cases first.sourceQueue <;> rfl
    · rw [h]
      cases first.sourceQueue with
      | none => rfl
      | some sq => simp
  · intro sq cs hsq hcs hcse
    refine ⟨deleteRun sq.name scanEnv (first :: rest), ?_, ?_⟩
    · rw [deleteMessages_cons, hsq, hcs]
      simp [hcse]
    · intro p hp
      have hp2 : p ∈ runCalls (fun kk mm => deleteItem sq.name (scanEnv kk) mm)
          0 (first :: rest) := by
        have heq := bulkLoop_eq (fun kk mm => deleteItem sq.name (scanEnv kk) mm)
          (first :: rest) 0 ⟨[], [], []⟩
        unfold deleteRun at hp
        rw [heq] at hp
        simpa using hp
      exact runCalls_queueName
        (fun kk mm => deleteItem sq.name (scanEnv kk) mm) sq.name
        (fun k m c hc => deleteItem_call_queueName sq.name (scanEnv k) m c hc)
        (first :: rest) 0 p hp2

/-- Witness for C10: a first message without provenance aborts the whole
operation; a first message with provenance yields an outcome whose every
deletion call targets that message's source queue name. -/
theorem claim_c10_first_provenance_witness :
    deleteMessages (fun _ => [[⟨some ("7"), ("x")⟩]])
      [⟨("1"), ("m"), ("b"), [], ("t"), 0, none, none⟩] = none ∧
    (∃ out, deleteMessages (fun _ => [[⟨some ("7"), ("x")⟩]])
        [⟨("7"), ("id1"), ("b"), [], ("t"), 0, some ⟨("q1"), ("c1")⟩,
          some ("cs1")⟩] = some out ∧
      ∀ p ∈ out.calls, p.2.queueName = (⟨("q1"), ("c1")⟩ : Queue).name) := by
  constructor
  · exact (claim_c10_first_provenance (fun _ => [[⟨some ("7"), ("x")⟩]])
      (⟨("1"), ("m"), ("b"), [], ("t"), 0, none, none⟩) []).1 (Or.inl rfl)
  · exact (claim_c10_first_provenance (fun _ => [[⟨some ("7"), ("x")⟩]])
      (⟨("7"), ("id1"), ("b"), [], ("t"), 0, some ⟨("q1"), ("c1")⟩,
        some ("cs1")⟩) []).2 ⟨("q1"), ("c1")⟩ ("cs1") rfl rfl (by decide)

/-- Counterexample to C6 as stated: a message moved via drag-and-drop
(`handleDrop` → `processMessageMove`) — here one that even carries both
provenance fields — is only sent to the destination queue; the operation
performs no source-queue scan at all, so the original is never located or
acknowledged.  The claim's "whether via the move command or via
drag-and-drop ... then scans the source queue" is therefore false on the
drag-and-drop path. -/
theorem claim_c6_counterexample :
    (processMessageMove ("q2") (fun _ => Except.ok ())
        [⟨("7"), ("id1"), ("b"), [], ("t"), 0, some ⟨("q1"), ("c1")⟩,
          some ("cs1")⟩]).1 =
      [BrokerOp.send ("q2")
        ⟨("7"), ("id1"), ("b"), [], ("t"), 0, some ⟨("q1"), ("c1")⟩,
          some ("cs1")⟩] ∧
    (processMessageMove ("q2") (fun _ => Except.ok ())
        [⟨("7"), ("id1"), ("b"), [], ("t"), 0, some ⟨("q1"), ("c1")⟩,
          some ("cs1")⟩]).1.any isScanOp = false := by
  exact ⟨rfl, rfl⟩

/-- Claim C6 (amended): for every message moved via the move command
(`moveMessageToQueue`) whose destination send succeeds and whose provenance
fields are present (under JavaScript truthiness), the operation first sends
a copy to the destination queue and then scans the source queue by the
message's sequence number; messages moved via drag-and-drop
(`processMessageMove`) are only sent to the destination — no source-queue
scan ever occurs on that path. -/
theorem claim_c6_send_then_scan :
    (∀ (targetQueueName : String) (scanEnv : List (List ReceivedMsg))
        (m : MessageData) (sq : Queue) (cs : String),
      m.sourceQueue = some sq → m.sourceConnectionString = some cs →
      (cs == ("")) = false →
      (moveItem targetQueueName (Except.ok ()) scanEnv m).events =
        [BrokerOp.send targetQueueName m,
          BrokerOp.scan ⟨sq.name, cs, m.sequenceNumber⟩]) ∧
    (∀ (targetQueueName : String) (send : Nat → Except String Unit)
        (msgs : List MessageData),
      (processMessageMove targetQueueName send msgs).1.filter isScanOp = []) := by
  constructor
  · intro tq scanEnv m sq cs hsq hcs hcse
    exact moveItem_events_of_provenance tq scanEnv m sq cs hsq hcs hcse
  · intro tq send msgs
    exact processSends_no_scan tq send msgs 0

/-- Witness for the amended C6: a concrete message with provenance and a
successful send produces exactly the send followed by the scan. -/
theorem claim_c6_send_then_scan_witness :
    (moveItem ("q2") (Except.ok ()) [[⟨some ("7"), ("x")⟩]]
        ⟨("7"), ("id1"), ("b"), [], ("t"), 0, some ⟨("q1"), ("c1")⟩,
          some ("cs1")⟩).events =
      [BrokerOp.send ("q2")
          ⟨("7"), ("id1"), ("b"), [], ("t"), 0, some ⟨("q1"), ("c1")⟩,
            some ("cs1")⟩,
        BrokerOp.scan ⟨(⟨("q1"), ("c1")⟩ : Queue).name, ("cs1"),
          (⟨("7"), ("id1"), ("b"), [], ("t"), 0, some ⟨("q1"), ("c1")⟩,
            some ("cs1")⟩ : MessageData).sequenceNumber⟩] :=
  claim_c6_send_then_scan.1 ("q2") [[⟨some ("7"), ("x")⟩]]
    (⟨("7"), ("id1"), ("b"), [], ("t"), 0, some ⟨("q1"), ("c1")⟩, some ("cs1")⟩)
    ⟨("q1"), ("c1")⟩ ("cs1") rfl rfl (by decide)

/-- Counterexample to C9 as stated: the webview's `handleDragStart` builds
drag snapshots without provenance keys, `startDrag` stores them unchanged,
and `handleDrop` submits them to the move path (`processMessageMove`, which
does send a copy of them).  So a snapshot that is a relocation candidate is
submitted to a move operation carrying neither provenance field, refuting
"every snapshot submitted to a move or delete operation carries both
provenance fields". -/
theorem claim_c9_counterexample :
    (webviewDragPayload ("1") ("m1") ("b") [] ("t") 0).sourceQueue = none ∧
    (webviewDragPayload ("1") ("m1") ("b") [] ("t") 0).sourceConnectionString =
      none ∧
    (handleDropPending [webviewDragPayload ("1") ("m1") ("b") [] ("t") 0]
        ("q2") (fun _ => Except.ok ())).1 =
      [BrokerOp.send ("q2") (webviewDragPayload ("1") ("m1") ("b") [] ("t") 0)] := by
  exact ⟨rfl, rfl, rfl⟩

/-- Claim C9 (amended): snapshots submitted through the webview
`moveToQueue` / `deleteMessages` commands always carry both provenance
fields, because the handler attaches the panel's queue and connection string
to every message before dispatching; snapshots submitted via drag-and-drop
(`startDrag` / `handleDrop`) carry neither provenance field, and the
drag-and-drop move path sends copies without consulting provenance. -/
theorem claim_c9_provenance_attachment :
    (∀ (panelQueue : Queue) (panelConnectionString : String)
        (msgs : List MessageData),
      ∀ m ∈ attachProvenance panelQueue panelConnectionString msgs,
        m.sourceQueue = some panelQueue ∧
        m.sourceConnectionString = some panelConnectionString) ∧
    (∀ (seq mid body : String) (props : List (String × String))
        (enq : String) (dc : Nat),
      (webviewDragPayload seq mid body props enq dc).sourceQueue = none ∧
      (webviewDragPayload seq mid body props enq dc).sourceConnectionString =
        none) := by
  constructor
  · intro q c msgs m hm
    rcases List.mem_map.mp hm with ⟨m0, _, hm0⟩
    rw [hm0.symm]
    exact ⟨rfl, rfl⟩
  · intro seq mid body props enq dc
    exact ⟨rfl, rfl⟩

/-- Witness for the amended C9: a concrete snapshot run through the
`moveToQueue` handler carries the panel's queue and connection string. -/
theorem claim_c9_provenance_attachment_witness :
    (⟨("1"), ("m1"), ("b"), [], ("t"), 0, some ⟨("q1"), ("c1")⟩,
        some ("cs1")⟩ : MessageData).sourceQueue = some ⟨("q1"), ("c1")⟩ ∧
    (⟨("1"), ("m1"), ("b"), [], ("t"), 0, some ⟨("q1"), ("c1")⟩,
        some ("cs1")⟩ : MessageData).sourceConnectionString = some ("cs1") :=
  claim_c9_provenance_attachment.1 ⟨("q1"), ("c1")⟩ ("cs1")
    [⟨("1"), ("m1"), ("b"), [], ("t"), 0, none, none⟩]
    (⟨("1"), ("m1"), ("b"), [], ("t"), 0, some ⟨("q1"), ("c1")⟩, some ("cs1")⟩)
    (by decide)

end BusDriver
